import Mathlib

/-!
Shallow embedding of `src/homework8.py` (console contact manager with
birthday-reminder logic) and verification of its specification claims.

Python `datetime.date` values are modelled by their proleptic-Gregorian
ordinal (CPython's `date.toordinal()`, where 0001-01-01 has ordinal 1 and
is a Monday).  Year/month/day views are recovered with a closed-form
civil-from-days conversion; `date + timedelta(days=k)` is ordinal
addition, `<` on dates is ordinal order, and `date.weekday()` (Monday = 0)
is `(ordinal + 6) % 7`.  `date.replace(year=y)` keeps month and day and
raises `ValueError` when the result is not a real calendar date, modelled
with `Except`.
-/

namespace HW8

/-- Gregorian leap-year test, as in CPython's `calendar.isleap`. -/
def isLeap (y : Nat) : Bool :=
  (y % 4 == 0 && y % 100 != 0) || y % 400 == 0

/-- Length of month `m` in year `y` (months numbered 1..12). -/
def daysInMonth (y m : Nat) : Nat :=
  if m = 2 then (if isLeap y then 29 else 28)
  else if m = 4 ∨ m = 6 ∨ m = 9 ∨ m = 11 then 30
  else 31

/-- Number of days in year `y` strictly before month `m`. -/
def daysBeforeMonth (y m : Nat) : Nat :=
  (match m with
   | 1 => 0 | 2 => 31 | 3 => 59 | 4 => 90 | 5 => 120 | 6 => 151
   | 7 => 181 | 8 => 212 | 9 => 243 | 10 => 273 | 11 => 304 | 12 => 334
   | _ => 0)
  + (if 2 < m ∧ isLeap y then 1 else 0)

/-- Number of days before January 1 of year `y` (CPython `_days_before_year`). -/
def daysBeforeYear (y : Nat) : Nat :=
  365 * (y - 1) + (y - 1) / 4 - (y - 1) / 100 + (y - 1) / 400

/-- Proleptic-Gregorian ordinal of the date `(y, m, d)`; 0001-01-01 ↦ 1. -/
def ymdToOrd (y m d : Nat) : Nat :=
  daysBeforeYear y + daysBeforeMonth y m + d

/-- Whether `(y, m, d)` is a real calendar date in the datetime range. -/
def validYMD (y m d : Nat) : Bool :=
  1 ≤ y && y ≤ 9999 && 1 ≤ m && m ≤ 12 && 1 ≤ d && d ≤ daysInMonth y m

/-- Inverse of `ymdToOrd`: closed-form civil-from-days conversion
(per Hinnant's algorithm, shifted so that ordinal 1 is 0001-01-01). -/
def ordToYMD (n : Nat) : Nat × Nat × Nat :=
  let z := n + 305
  let era := z / 146097
  let doe := z % 146097
  let yoe := (doe - doe / 1460 + doe / 36524 - doe / 146096) / 365
  let doy := doe - (365 * yoe + yoe / 4 - yoe / 100)
  let mp := (5 * doy + 2) / 153
  let d := doy - (153 * mp + 2) / 5 + 1
  let m := if mp < 10 then mp + 3 else mp - 9
  (if m ≤ 2 then era * 400 + yoe + 1 else era * 400 + yoe, m, d)

/-- A Python `datetime.date`, represented by its proleptic-Gregorian ordinal. -/
structure PyDate where
  ord : Nat
  deriving DecidableEq, Repr

/-- Build the date `(y, m, d)` (Python `date(y, m, d)` on valid input). -/
def mkDate (y m d : Nat) : PyDate := ⟨ymdToOrd y m d⟩

/-- Python `date.weekday()`: Monday = 0, ..., Sunday = 6. -/
def PyDate.weekday (dt : PyDate) : Nat := (dt.ord + 6) % 7

/-- Python `date + timedelta(days=k)` for `k ≥ 0`. -/
def PyDate.addDays (dt : PyDate) (k : Nat) : PyDate := ⟨dt.ord + k⟩

/-- Year component of a date. -/
def PyDate.year (dt : PyDate) : Nat := (ordToYMD dt.ord).1

/-- Month component of a date. -/
def PyDate.month (dt : PyDate) : Nat := (ordToYMD dt.ord).2.1

/-- Day-of-month component of a date. -/
def PyDate.day (dt : PyDate) : Nat := (ordToYMD dt.ord).2.2

/-- Python `date.replace(year=y)`: keep month and day, change the year;
raises `ValueError` ("day is out of range for month") when the result is
not a valid calendar date (e.g. Feb 29 in a non-leap year). -/
def PyDate.replaceYear (dt : PyDate) (y : Nat) : Except String PyDate :=
  if validYMD y dt.month dt.day then Except.ok (mkDate y dt.month dt.day)
  else Except.error "day is out of range for month"

/-! Source, lines 6-10:
```
def find_next_weekday(current_date, target_weekday):
    days_ahead = target_weekday - current_date.weekday()
    if days_ahead < 0:
        days_ahead += 7
    return current_date + timedelta(days=days_ahead)
```
-/

/-- Source function `find_next_weekday` (`src/homework8.py` lines 6-10). -/
def find_next_weekday (current_date : PyDate) (target_weekday : Nat) : PyDate :=
  let days_ahead : Int := (target_weekday : Int) - (current_date.weekday : Int)
  let days_ahead := if days_ahead < 0 then days_ahead + 7 else days_ahead
  current_date.addDays days_ahead.toNat

/-! Source, lines 14-20:
```
def adjust_birthday(birthday):
    if birthday.weekday() == 5:
        return find_next_weekday(birthday, 1)
    elif birthday.weekday() == 6:
        return find_next_weekday(birthday, 2)
    else:
        return birthday
```
-/

/-- Source function `adjust_birthday` (`src/homework8.py` lines 14-20). -/
def adjust_birthday (birthday : PyDate) : PyDate :=
  if birthday.weekday = 5 then find_next_weekday birthday 1
  else if birthday.weekday = 6 then find_next_weekday birthday 2
  else birthday

/-! Data model: fields, records, address book.

Field constructors (`Field.__init__`) store a raw Python value and call
`validate`, which raises `ValueError` on bad input.  Python values passed
to the duck-typed constructors are modelled by `PyValue`; validation is
modelled as `Except String Unit`.
-/

/-- A dynamically-typed Python value, as far as the validators inspect it. -/
inductive PyValue where
  | str (s : String)
  | int (n : Int)
  | none
  deriving DecidableEq, Repr

/-- Modelled from CPython `str.isdigit` at the level of single characters,
restricted to a representative set of Unicode code points: the ASCII
digits U+0030..U+0039, the Arabic-Indic digits U+0660..U+0669, the
Devanagari digits U+0966..U+096F and the fullwidth digits U+FF10..U+FF19
(all of Unicode category Nd, hence `isdigit`-true in Python); every other
modelled character is not a digit. -/
def pyIsDigitChar (c : Char) : Bool :=
  (0x30 ≤ c.toNat && c.toNat ≤ 0x39)
  || (0x660 ≤ c.toNat && c.toNat ≤ 0x669)
  || (0x966 ≤ c.toNat && c.toNat ≤ 0x96F)
  || (0xFF10 ≤ c.toNat && c.toNat ≤ 0xFF19)

/-- Python `str.isdigit()`: true iff the string is non-empty and every
character is a digit (in the Unicode sense of `pyIsDigitChar`). -/
def pyStrIsDigit (s : String) : Bool :=
  !s.toList.isEmpty && s.toList.all pyIsDigitChar

/-- An ASCII digit character, code points 0x30..0x39 (vocabulary of the spec's
"10 ASCII digits" invariant, for comparison with the code's check). -/
def isAsciiDigit (c : Char) : Bool :=
  0x30 ≤ c.toNat && c.toNat ≤ 0x39

/-! Source, lines 49-52:
```
class Name(Field):
    def validate(self):
        if not isinstance(self.value, str):
            raise ValueError("Name must be a string")
```
-/

/-- Validation run by the `Name` field constructor
(`src/homework8.py` lines 49-52). -/
def Name.validate (value : PyValue) : Except String Unit :=
  match value with
  | PyValue.str _ => Except.ok ()
  | _ => Except.error "Name must be a string"

/-! Source, lines 54-61:
```
class Phone(Field):
    def validate(self):
        if not isinstance(self.value, str):
            raise ValueError("Phone number must be a string")
        if not self.value.isdigit():
            raise ValueError("Phone number must contain only digits")
        if len(self.value) != 10:
            raise ValueError("Phone number must be 10 digits long")
```
-/

/-- Validation run by the `Phone` field constructor
(`src/homework8.py` lines 54-61). -/
def Phone.validate (value : PyValue) : Except String Unit :=
  match value with
  | PyValue.str s =>
    if !pyStrIsDigit s then Except.error "Phone number must contain only digits"
    else if s.length ≠ 10 then Except.error "Phone number must be 10 digits long"
    else Except.ok ()
  | _ => Except.error "Phone number must be a string"

/-- A `Record` (source lines 71-104): validated name, list of validated
phone strings in insertion order, and the optional stored birthday.
The Python `Birthday` field stores the adjusted date formatted as
`DD.MM.YYYY` and `get_upcoming_birthdays` re-parses it with the same
format; the round-tripped calendar date is stored directly. -/
structure Record where
  name : String
  phones : List String
  birthday : Option PyDate
  deriving DecidableEq, Repr

/-! Source, lines 77-91:
```
def add_phone(self, phone):
    phone_obj = Phone(phone)
    self.phones.append(phone_obj)

def remove_phone(self, phone):
    self.phones = [p for p in self.phones if str(p) != phone]

def change_phone(self, old_phone, new_phone):
    self.remove_phone(old_phone)
    self.add_phone(new_phone)
```
-/

/-- Source method `Record.add_phone`: construct a `Phone` field (which
validates and can raise) and append it. -/
def Record.add_phone (r : Record) (phone : String) : Except String Record :=
  match Phone.validate (PyValue.str phone) with
  | Except.ok _ => Except.ok ⟨r.name, r.phones ++ [phone], r.birthday⟩
  | Except.error e => Except.error e

/-- Source method `Record.remove_phone`: keep the phones whose string
differs from `phone`. -/
def Record.remove_phone (r : Record) (phone : String) : Record :=
  ⟨r.name, r.phones.filter (fun p => p ≠ phone), r.birthday⟩

/-- Source method `Record.change_phone`: remove then add. -/
def Record.change_phone (r : Record) (old_phone new_phone : String) :
    Except String Record :=
  (r.remove_phone old_phone).add_phone new_phone

/-- An entry produced by `get_upcoming_birthdays`
(`{"name": ..., "birthday": ...}`). -/
structure Entry where
  name : String
  birthday : PyDate
  deriving DecidableEq, Repr

/-! Source, lines 119-129 (`AddressBook.get_upcoming_birthdays`):
```
def get_upcoming_birthdays(self):
    upcoming_birthdays = []
    today = date.today()
    for record in self.data.values():
        if record.birthday:
            birthday_date = datetime.strptime(record.birthday.value, "%d.%m.%Y").date()
            birthday_date = birthday_date.replace(year=today.year)
            if birthday_date < today:
                birthday_date = birthday_date.replace(year=today.year + 1)
            upcoming_birthdays.append({"name": record.name.value, "birthday": birthday_date})
    return upcoming_birthdays
```
The address book's `data` dict is modelled by its list of records in
insertion order; the ambient `date.today()` is an explicit parameter; the
`ValueError` a `replace` can raise propagates as `Except.error`.
-/

/-- Per-record candidate computation of `get_upcoming_birthdays`:
re-anchor the stored birthday `b` to the year of `today`, and to the next year
when the re-anchored date has already passed. -/
def reanchor (today b : PyDate) : Except String PyDate :=
  match b.replaceYear today.year with
  | Except.error e => Except.error e
  | Except.ok c =>
    if c.ord < today.ord then c.replaceYear (today.year + 1) else Except.ok c

/-- Source method `AddressBook.get_upcoming_birthdays`
(`src/homework8.py` lines 119-129), with `today` explicit. -/
def get_upcoming_birthdays (today : PyDate) : List Record → Except String (List Entry)
  | [] => Except.ok []
  | r :: rest =>
    match r.birthday with
    | Option.none => get_upcoming_birthdays today rest
    | Option.some b =>
      match reanchor today b with
      | Except.error e => Except.error e
      | Except.ok c =>
        match get_upcoming_birthdays today rest with
        | Except.error e => Except.error e
        | Except.ok es => Except.ok (⟨r.name, c⟩ :: es)

/-! Source, lines 145-156 (`birthdays` command):
```
@input_error
def birthdays(args, book):
    upcoming_birthdays = book.get_upcoming_birthdays()
    if upcoming_birthdays:
        print("Upcoming birthdays within the next week:")
        for user in upcoming_birthdays:
            birthday = user["birthday"]
            if birthday.weekday() >= 5:
                birthday = find_next_weekday(birthday, 0)
            print(f-string of user name and birthday.strftime of DD.MM.YYYY)
    else:
        print("No upcoming birthdays within the next week.")
```
The command only rebinds the local `birthday`; it never writes to the
book or its records, so its state effect is modelled by returning the
book alongside the printed name/date pairs.  (The `@input_error`
decorator turns the `ValueError` from a failed `replace` into a message
string; the error path is kept as `Except.error` here.)
-/

/-- Display date used by the `birthdays` command for one entry. -/
def displayDate (birthday : PyDate) : PyDate :=
  if birthday.weekday ≥ 5 then find_next_weekday birthday 0 else birthday

/-- Source command `birthdays` (`src/homework8.py` lines 145-156):
the printed (name, date) pairs, paired with the book after the command. -/
def birthdays_command (today : PyDate) (book : List Record) :
    Except String (List (String × PyDate)) × List Record :=
  (match get_upcoming_birthdays today book with
   | Except.ok entries =>
       Except.ok (entries.map (fun e => (e.name, displayDate e.birthday)))
   | Except.error e => Except.error e,
   book)

/-! Helper lemmas shared by the claim theorems. -/

/-- Two dates are equal iff their ordinals are equal. -/
theorem PyDate.eq_iff_ord (a b : PyDate) : a = b ↔ a.ord = b.ord := by
  cases a; cases b; simp

/-- Projection of the `PyDate` constructor. -/
theorem PyDate.ord_mk (n : Nat) : (⟨n⟩ : PyDate).ord = n := rfl

/-- Ordinal of `find_next_weekday`: for a target weekday in 0..6 the
source adds `(target - weekday) mod 7` days. -/
theorem find_next_weekday_ord (n W : Nat) (hW : W ≤ 6) :
    (find_next_weekday ⟨n⟩ W).ord = n + (7 + W - (n + 6) % 7) % 7 := by
  simp only [find_next_weekday, PyDate.weekday, PyDate.addDays, PyDate.ord_mk]
  split_ifs with h <;> omega

/-- Ordinal form of `adjust_birthday`: weekend dates move 3 days forward,
weekday dates are unchanged. -/
theorem adjust_birthday_ord (n : Nat) :
    (adjust_birthday ⟨n⟩).ord =
      if (n + 6) % 7 = 5 ∨ (n + 6) % 7 = 6 then n + 3 else n := by
  simp only [adjust_birthday, PyDate.weekday, PyDate.ord_mk]
  have h1 := find_next_weekday_ord n 1 (by omega)
  have h2 := find_next_weekday_ord n 2 (by omega)
  split_ifs <;> (try simp only [PyDate.ord_mk]) <;> omega

/-! Claim theorems. -/

/-- C1 (code evaluation at the failing input): the raw birthday
14.09.2024 is a Saturday, but `adjust_birthday` maps it to 17.09.2024, a
Tuesday (weekday 1), three days later — not to the following Monday
16.09.2024 that the specification requires; likewise the Sunday
15.09.2024 is mapped to Wednesday 18.09.2024. -/
theorem adjust_birthday_saturday_to_tuesday :
    (mkDate 2024 9 14).weekday = 5 ∧
    adjust_birthday (mkDate 2024 9 14) = mkDate 2024 9 17 ∧
    (adjust_birthday (mkDate 2024 9 14)).weekday = 1 ∧
    adjust_birthday (mkDate 2024 9 14) ≠ mkDate 2024 9 16 ∧
    (mkDate 2024 9 15).weekday = 6 ∧
    adjust_birthday (mkDate 2024 9 15) = mkDate 2024 9 18 := by
  refine ⟨by decide, by decide, by decide, by decide, by decide, by decide⟩

/-- C2 (code evaluation at the failing input): with today = 16.09.2024,
a contact whose stored birthday re-anchors to 25.12.2024 — a full 100
days ahead, far outside the 7-day window — is still emitted by
`get_upcoming_birthdays`: the source has no window filter at all. -/
theorem get_upcoming_birthdays_no_window :
    get_upcoming_birthdays (mkDate 2024 9 16)
        [⟨"Alice", [], some (mkDate 2024 12 25)⟩] =
      Except.ok [⟨"Alice", mkDate 2024 12 25⟩] ∧
    (mkDate 2024 12 25).ord - (mkDate 2024 9 16).ord = 100 := by
  refine ⟨by rfl, by decide⟩

/-- C4: for every date `D` and target weekday `W` in 0..6,
`find_next_weekday D W` lands on weekday `W`, lies 0..6 days after `D`,
and equals `D` itself when `D` already has weekday `W`. -/
theorem find_next_weekday_correct (D : PyDate) (W : Nat) (hW : W ≤ 6) :
    (find_next_weekday D W).weekday = W ∧
    D.ord ≤ (find_next_weekday D W).ord ∧
    (find_next_weekday D W).ord ≤ D.ord + 6 ∧
    (D.weekday = W → find_next_weekday D W = D) := by
  obtain ⟨n⟩ := D
  have h := find_next_weekday_ord n W hW
  simp only [PyDate.weekday, PyDate.ord_mk]
  refine ⟨by omega, by omega, by omega, ?_⟩
  intro hw
  rw [PyDate.eq_iff_ord]
  simp only [PyDate.ord_mk]
  omega

/-- Witness for C4 at a concrete input: from Saturday 14.09.2024 the next
Tuesday (weekday 1) is 17.09.2024. -/
theorem find_next_weekday_correct_witness :
    (1 : Nat) ≤ 6 ∧
    ((find_next_weekday (mkDate 2024 9 14) 1).weekday = 1 ∧
     (mkDate 2024 9 14).ord ≤ (find_next_weekday (mkDate 2024 9 14) 1).ord ∧
     (find_next_weekday (mkDate 2024 9 14) 1).ord ≤ (mkDate 2024 9 14).ord + 6 ∧
     ((mkDate 2024 9 14).weekday = 1 →
        find_next_weekday (mkDate 2024 9 14) 1 = mkDate 2024 9 14)) :=
  ⟨by decide, find_next_weekday_correct (mkDate 2024 9 14) 1 (by decide)⟩

/-- C5: `adjust_birthday` never lands on Saturday or Sunday, leaves
Monday-through-Friday dates unchanged, and is idempotent.  (In the source
Saturday moves to Tuesday and Sunday to Wednesday, both of which are
business days, so these invariants hold even though the target is not
Monday.) -/
theorem adjust_birthday_invariants (D : PyDate) :
    (adjust_birthday D).weekday ≠ 5 ∧
    (adjust_birthday D).weekday ≠ 6 ∧
    (D.weekday < 5 → adjust_birthday D = D) ∧
    adjust_birthday (adjust_birthday D) = adjust_birthday D := by
  obtain ⟨n⟩ := D
  have h1 := adjust_birthday_ord n
  have h2 := adjust_birthday_ord (adjust_birthday ⟨n⟩).ord
  have he : adjust_birthday ⟨(adjust_birthday ⟨n⟩).ord⟩ =
      adjust_birthday (adjust_birthday ⟨n⟩) := rfl
  rw [he] at h2
  simp only [PyDate.weekday, PyDate.ord_mk]
  refine ⟨by split_ifs at h1 <;> omega, by split_ifs at h1 <;> omega, ?_, ?_⟩
  · intro hw
    rw [PyDate.eq_iff_ord]
    simp only [PyDate.ord_mk]
    split_ifs at h1 <;> omega
  · rw [PyDate.eq_iff_ord]
    split_ifs at h1 h2 <;> omega

/-- Witness for C5 at a concrete input: adjusting Saturday 14.09.2024. -/
theorem adjust_birthday_invariants_witness :
    (adjust_birthday (mkDate 2024 9 14)).weekday ≠ 5 ∧
    (adjust_birthday (mkDate 2024 9 14)).weekday ≠ 6 ∧
    ((mkDate 2024 9 14).weekday < 5 →
       adjust_birthday (mkDate 2024 9 14) = mkDate 2024 9 14) ∧
    adjust_birthday (adjust_birthday (mkDate 2024 9 14)) =
      adjust_birthday (mkDate 2024 9 14) :=
  adjust_birthday_invariants (mkDate 2024 9 14)

/-- C7 (counterexample): the ten-character string of fullwidth digits
U+FF10..U+FF19 is accepted by `Phone.validate` although none of its
characters is an ASCII digit, because Python `str.isdigit` accepts every
Unicode decimal digit; so acceptance is not limited to 10 ASCII digits. -/
theorem phone_accepts_nonascii_digits :
    Phone.validate (PyValue.str "０１２３４５６７８９") = Except.ok () ∧
    "０１２３４５６７８９".length = 10 ∧
    ¬ ∀ c ∈ "０１２３４５６７８９".toList, isAsciiDigit c := by
  refine ⟨by rfl, by decide, by decide⟩

/-- C7 (amended): `Phone.validate` succeeds exactly on string values of
length 10 all of whose characters are digits in the sense of Python
`str.isdigit` (`pyIsDigitChar`), a strictly larger set than the ASCII
digits; every other value (non-string, wrong length, or containing a
non-digit character) is rejected with a `ValueError` message. -/
theorem phone_validate_characterization (v : PyValue) :
    Phone.validate v = Except.ok () ↔
      ∃ s, v = PyValue.str s ∧ s.length = 10 ∧
        ∀ c ∈ s.toList, pyIsDigitChar c := by
  cases v with
  | str s =>
    simp only [Phone.validate]
    constructor
    · intro h
      refine ⟨s, rfl, ?_⟩
      by_cases hd : pyStrIsDigit s
      · simp only [hd, Bool.not_true, if_false] at h
        by_cases hl : s.length = 10
        · refine ⟨hl, ?_⟩
          have := (Bool.and_eq_true _ _).mp hd
          intro c hc
          exact (List.all_eq_true.mp this.2) c hc
        · simp [hl] at h
      · simp [hd] at h
    · rintro ⟨t, ht, hl, hall⟩
      cases ht
      have hlen : s.toList.length = 10 := hl
      have hd : pyStrIsDigit s = true := by
        simp only [pyStrIsDigit, Bool.and_eq_true]
        constructor
        · cases hlist : s.toList with
          | nil => rw [hlist] at hlen; simp at hlen
          | cons a l => simp
        · exact List.all_eq_true.mpr hall
      simp [hd, hl]
  | int n => simp [Phone.validate]
  | none => simp [Phone.validate]

/-- C8 (counterexample): the empty string is accepted by the `Name`
field constructor — `Name.validate` only checks that the value is a
string, so a stored contact can have an empty name. -/
theorem name_accepts_empty_string :
    Name.validate (PyValue.str "") = Except.ok () := by rfl

/-- C8 (amended): `Name.validate` succeeds exactly on string values —
including the empty string; only non-string inputs fail with a
`ValueError`. -/
theorem name_validate_characterization (v : PyValue) :
    Name.validate v = Except.ok () ↔ ∃ s, v = PyValue.str s := by
  cases v <;> simp [Name.validate]

/-- C10: `change_phone old new` removes every stored phone equal to `old`
and appends `new` (given that `new` passes phone validation); when `old`
is not among the stored phones the call still succeeds, `new` is appended
anyway, and the phone list grows by one — no missing-phone error. -/
theorem change_phone_removes_then_appends (r : Record)
    (old_phone new_phone : String)
    (hnew : Phone.validate (PyValue.str new_phone) = Except.ok ()) :
    r.change_phone old_phone new_phone =
      Except.ok ⟨r.name, r.phones.filter (fun p => p ≠ old_phone) ++ [new_phone],
                 r.birthday⟩ ∧
    (old_phone ∉ r.phones →
      r.change_phone old_phone new_phone =
        Except.ok ⟨r.name, r.phones ++ [new_phone], r.birthday⟩ ∧
      ∀ r2, r.change_phone old_phone new_phone = Except.ok r2 →
        r2.phones.length = r.phones.length + 1) := by
  have hmain : r.change_phone old_phone new_phone =
      Except.ok ⟨r.name, r.phones.filter (fun p => p ≠ old_phone) ++ [new_phone],
                 r.birthday⟩ := by
    simp only [Record.change_phone, Record.remove_phone, Record.add_phone, hnew]
  refine ⟨hmain, ?_⟩
  intro hnotin
  have hfilter : r.phones.filter (fun p => p ≠ old_phone) = r.phones := by
    apply List.filter_eq_self.mpr
    intro a ha
    simp only [ne_eq, decide_eq_true_eq]
    intro hb
    exact hnotin (hb ▸ ha)
  rw [hfilter] at hmain
  refine ⟨hmain, ?_⟩
  intro r2 hr2
  rw [hmain] at hr2
  cases hr2
  simp

/-- Witness for C10 at a concrete record: changing a phone that is not
stored appends the new number and grows the list from one to two. -/
theorem change_phone_removes_then_appends_witness :
    Phone.validate (PyValue.str "5555555555") = Except.ok () ∧
    ((Record.mk "Bob" ["0123456789"] Option.none).change_phone
        "9999999999" "5555555555" =
      Except.ok ⟨"Bob", (["0123456789"].filter (fun p => p ≠ "9999999999"))
          ++ ["5555555555"], Option.none⟩ ∧
    ("9999999999" ∉ ["0123456789"] →
      (Record.mk "Bob" ["0123456789"] Option.none).change_phone
          "9999999999" "5555555555" =
        Except.ok ⟨"Bob", ["0123456789"] ++ ["5555555555"], Option.none⟩ ∧
      ∀ r2, (Record.mk "Bob" ["0123456789"] Option.none).change_phone
          "9999999999" "5555555555" = Except.ok r2 →
        r2.phones.length = ["0123456789"].length + 1)) :=
  ⟨by rfl, change_phone_removes_then_appends
    (Record.mk "Bob" ["0123456789"] Option.none) "9999999999" "5555555555" (by rfl)⟩

/-- Weekday of the result of `find_next_weekday` is the target weekday
(helper shared by the display-shift theorem). -/
theorem find_next_weekday_weekday (d : PyDate) (W : Nat) (hW : W ≤ 6) :
    (find_next_weekday d W).weekday = W := by
  obtain ⟨n⟩ := d
  have h := find_next_weekday_ord n W hW
  simp only [PyDate.weekday]
  omega

/-- C3: every emitted entry for a contact with stored birthday `b` uses
the candidate obtained by replacing the year of `b` with the year of
`today`, re-replaced with the next year exactly when that candidate is
strictly earlier than `today`. -/
theorem get_upcoming_birthdays_reanchors (today : PyDate) (book : List Record)
    (r : Record) (b c : PyDate) (res : List Entry)
    (hr : r ∈ book) (hb : r.birthday = some b)
    (hres : get_upcoming_birthdays today book = Except.ok res)
    (hc : b.replaceYear today.year = Except.ok c) :
    (c.ord < today.ord →
       ∃ c2, c.replaceYear (today.year + 1) = Except.ok c2 ∧
         Entry.mk r.name c2 ∈ res) ∧
    (¬ c.ord < today.ord → Entry.mk r.name c ∈ res) := by
  induction book generalizing res with
  | nil => cases hr
  | cons hd tl ih =>
    rw [List.mem_cons] at hr
    rcases hr with rfl | hr
    · unfold get_upcoming_birthdays at hres
      rw [hb] at hres
      dsimp only [] at hres
      unfold reanchor at hres
      rw [hc] at hres
      dsimp only [] at hres
      by_cases hlt : c.ord < today.ord
      · rw [if_pos hlt] at hres
        refine ⟨fun _ => ?_, fun h => absurd hlt h⟩
        cases h2 : c.replaceYear (today.year + 1) with
        | error e =>
          rw [h2] at hres
          dsimp only [] at hres
          exact Except.noConfusion hres
        | ok c2 =>
          rw [h2] at hres
          dsimp only [] at hres
          cases h3 : get_upcoming_birthdays today tl with
          | error e =>
            rw [h3] at hres
            dsimp only [] at hres
            exact Except.noConfusion hres
          | ok es =>
            rw [h3] at hres
            dsimp only [] at hres
            injection hres with h4
            subst h4
            exact ⟨c2, rfl, List.mem_cons_self _ _⟩
      · rw [if_neg hlt] at hres
        cases h3 : get_upcoming_birthdays today tl with
        | error e =>
          rw [h3] at hres
          dsimp only [] at hres
          exact Except.noConfusion hres
        | ok es =>
          rw [h3] at hres
          dsimp only [] at hres
          injection hres with h4
          subst h4
          exact ⟨fun h => absurd h hlt, fun _ => List.mem_cons_self _ _⟩
    · unfold get_upcoming_birthdays at hres
      cases hhd : hd.birthday with
      | none =>
        rw [hhd] at hres
        dsimp only [] at hres
        exact ih res hr hres
      | some b2 =>
        rw [hhd] at hres
        dsimp only [] at hres
        cases h2 : reanchor today b2 with
        | error e =>
          rw [h2] at hres
          dsimp only [] at hres
          exact Except.noConfusion hres
        | ok c2 =>
          rw [h2] at hres
          dsimp only [] at hres
          cases h3 : get_upcoming_birthdays today tl with
          | error e =>
            rw [h3] at hres
            dsimp only [] at hres
            exact Except.noConfusion hres
          | ok es =>
            rw [h3] at hres
            dsimp only [] at hres
            injection hres with h4
            subst h4
            have hih := ih es hr h3
            refine ⟨fun h => ?_, fun h => List.mem_cons_of_mem _ (hih.2 h)⟩
            obtain ⟨c2x, hc2, hmem⟩ := hih.1 h
            exact ⟨c2x, hc2, List.mem_cons_of_mem _ hmem⟩

/-- Witness for C3: with today = 28.12.2024, a contact stored with
birthday 02.01.2023 re-anchors to 02.01.2024, which has passed, so the
reported entry carries 02.01.2025. -/
theorem get_upcoming_birthdays_reanchors_witness :
    Record.mk "A" [] (some (mkDate 2023 1 2)) ∈
        [Record.mk "A" [] (some (mkDate 2023 1 2))] ∧
    (Record.mk "A" [] (some (mkDate 2023 1 2))).birthday =
        some (mkDate 2023 1 2) ∧
    get_upcoming_birthdays (mkDate 2024 12 28)
        [Record.mk "A" [] (some (mkDate 2023 1 2))] =
      Except.ok [Entry.mk "A" (mkDate 2025 1 2)] ∧
    (mkDate 2023 1 2).replaceYear (mkDate 2024 12 28).year =
      Except.ok (mkDate 2024 1 2) ∧
    (((mkDate 2024 1 2).ord < (mkDate 2024 12 28).ord →
       ∃ c2, (mkDate 2024 1 2).replaceYear ((mkDate 2024 12 28).year + 1) =
           Except.ok c2 ∧
         Entry.mk "A" c2 ∈ [Entry.mk "A" (mkDate 2025 1 2)]) ∧
     (¬ (mkDate 2024 1 2).ord < (mkDate 2024 12 28).ord →
       Entry.mk "A" (mkDate 2024 1 2) ∈ [Entry.mk "A" (mkDate 2025 1 2)])) :=
  ⟨by decide, by rfl, by rfl, by rfl,
   get_upcoming_birthdays_reanchors (mkDate 2024 12 28)
     [Record.mk "A" [] (some (mkDate 2023 1 2))]
     (Record.mk "A" [] (some (mkDate 2023 1 2)))
     (mkDate 2023 1 2) (mkDate 2024 1 2) [Entry.mk "A" (mkDate 2025 1 2)]
     (by decide) (by rfl) (by rfl) (by rfl)⟩

/-- C6: the `birthdays` command prints, for each emitted entry, the
candidate date shifted to the next Monday via `find_next_weekday _ 0`
whenever the candidate falls on Saturday or Sunday (the shifted date is a
Monday), and the command leaves the address book — hence every stored
birthday field — unchanged. -/
theorem birthdays_shifts_for_display_only (today : PyDate)
    (book : List Record) (entries : List Entry)
    (h : get_upcoming_birthdays today book = Except.ok entries) :
    (birthdays_command today book).1 =
      Except.ok (entries.map (fun e => (e.name, displayDate e.birthday))) ∧
    (∀ e ∈ entries, e.birthday.weekday ≥ 5 →
       displayDate e.birthday = find_next_weekday e.birthday 0 ∧
       (displayDate e.birthday).weekday = 0) ∧
    (birthdays_command today book).2 = book := by
  refine ⟨by simp only [birthdays_command, h], ?_, rfl⟩
  intro e he hw
  have hd : displayDate e.birthday = find_next_weekday e.birthday 0 := by
    simp only [displayDate, if_pos hw]
  exact ⟨hd, by rw [hd]; exact find_next_weekday_weekday e.birthday 0 (by omega)⟩

/-- Witness for C6: with today = Friday 20.09.2024 and a candidate on
Saturday 21.09.2024, the printed date is Monday 23.09.2024 while the book
is returned unchanged. -/
theorem birthdays_shifts_for_display_only_witness :
    get_upcoming_birthdays (mkDate 2024 9 20)
        [Record.mk "Carol" [] (some (mkDate 2024 9 21))] =
      Except.ok [Entry.mk "Carol" (mkDate 2024 9 21)] ∧
    ((birthdays_command (mkDate 2024 9 20)
        [Record.mk "Carol" [] (some (mkDate 2024 9 21))]).1 =
      Except.ok ([Entry.mk "Carol" (mkDate 2024 9 21)].map
        (fun e => (e.name, displayDate e.birthday))) ∧
    (∀ e ∈ [Entry.mk "Carol" (mkDate 2024 9 21)], e.birthday.weekday ≥ 5 →
       displayDate e.birthday = find_next_weekday e.birthday 0 ∧
       (displayDate e.birthday).weekday = 0) ∧
    (birthdays_command (mkDate 2024 9 20)
        [Record.mk "Carol" [] (some (mkDate 2024 9 21))]).2 =
      [Record.mk "Carol" [] (some (mkDate 2024 9 21))]) :=
  ⟨by rfl,
   birthdays_shifts_for_display_only (mkDate 2024 9 20)
     [Record.mk "Carol" [] (some (mkDate 2024 9 21))]
     [Entry.mk "Carol" (mkDate 2024 9 21)] (by rfl)⟩

/-- C9: when the current year is not a leap year, a stored birthday of
February 29 makes `get_upcoming_birthdays` raise the invalid-date
`ValueError` from `date.replace` — no entry list is produced and no
clamping to a nearby valid date happens. -/
theorem get_upcoming_birthdays_feb29_raises (today : PyDate)
    (book : List Record) (r : Record) (b : PyDate)
    (hr : r ∈ book) (hb : r.birthday = some b)
    (hm : b.month = 2) (hd29 : b.day = 29)
    (hleap : isLeap today.year = false) :
    ∃ e, get_upcoming_birthdays today book = Except.error e := by
  have hv : validYMD today.year b.month b.day = false := by
    rw [hm, hd29]
    simp [validYMD, daysInMonth, hleap]
  have hrep : b.replaceYear today.year =
      Except.error "day is out of range for month" := by
    rw [PyDate.replaceYear, hv]
    simp
  have hre : reanchor today b =
      Except.error "day is out of range for month" := by
    unfold reanchor
    rw [hrep]
  induction book with
  | nil => cases hr
  | cons hd tl ih =>
    rw [List.mem_cons] at hr
    rcases hr with rfl | hr
    · refine ⟨"day is out of range for month", ?_⟩
      unfold get_upcoming_birthdays
      rw [hb]
      dsimp only []
      rw [hre]
    · unfold get_upcoming_birthdays
      cases hhd : hd.birthday with
      | none =>
        dsimp only []
        exact ih hr
      | some b2 =>
        dsimp only []
        cases h2 : reanchor today b2 with
        | error e => exact ⟨e, rfl⟩
        | ok c2 =>
          obtain ⟨e, he⟩ := ih hr
          refine ⟨e, ?_⟩
          dsimp only []
          rw [he]

/-- Witness for C9: today = 01.03.2025 (2025 is not a leap year) and a
contact stored with birthday 29.02.2024. -/
theorem get_upcoming_birthdays_feb29_raises_witness :
    Record.mk "Bob" [] (some (mkDate 2024 2 29)) ∈
        [Record.mk "Bob" [] (some (mkDate 2024 2 29))] ∧
    (Record.mk "Bob" [] (some (mkDate 2024 2 29))).birthday =
        some (mkDate 2024 2 29) ∧
    (mkDate 2024 2 29).month = 2 ∧
    (mkDate 2024 2 29).day = 29 ∧
    isLeap (mkDate 2025 3 1).year = false ∧
    ∃ e, get_upcoming_birthdays (mkDate 2025 3 1)
        [Record.mk "Bob" [] (some (mkDate 2024 2 29))] = Except.error e :=
  ⟨by decide, by rfl, by decide, by decide, by decide,
   get_upcoming_birthdays_feb29_raises (mkDate 2025 3 1)
     [Record.mk "Bob" [] (some (mkDate 2024 2 29))]
     (Record.mk "Bob" [] (some (mkDate 2024 2 29))) (mkDate 2024 2 29)
     (by decide) (by rfl) (by decide) (by decide) (by decide)⟩

end HW8
